import Mathlib

/-!
Verification of the JobMatcher matching core
(`app/services/matching_service.py`, `app/services/category_matching.py`,
data model in `app/domain/models.py`).

Conventions of the embedding:
* Python `float` values are modelled as `ℚ` (all scoring arithmetic in the
  source is on decimal literals and small integer ratios, which are exact).
* Python strings are Lean `String`s; `str.lower()` is `pyLower`,
  `str.strip()` is `pyStrip`, `" ".join(xs)` is `pyJoin " " xs`, and the
  Python substring test `needle in hay` is `strContains hay needle`.
* The sentence-transformers model and its cosine similarity are external ML
  computation; they enter the embedding as an oracle argument
  (`sim : Option ℚ`, `none` standing for the caught embedding failure).
* The `try/except` wrapper of `_calculate_match` catches arbitrary unexpected
  exceptions; whether such an exception occurs is likewise an oracle argument
  (`exc : Option String`, carrying `str(e)` when an exception is raised).
-/

namespace JobMatcher

/-- Embeds Python `str.lower()` (character-wise lowering). -/
def pyLower (s : String) : String := ⟨s.data.map Char.toLower⟩

/-- Embeds Python `str.strip()` (drop whitespace from both ends). -/
def pyStrip (s : String) : String :=
  ⟨((s.data.dropWhile Char.isWhitespace).reverse.dropWhile Char.isWhitespace).reverse⟩

/-- Embeds Python `sep.join(xs)`. -/
def pyJoin (sep : String) : List String → String
  | [] => ""
  | [a] => a
  | a :: b :: rest => a ++ sep ++ pyJoin sep (b :: rest)

/-- Embeds the Python substring test `needle in hay`. -/
def strContains (hay needle : String) : Bool :=
  decide (needle.data <:+: hay.data)

/-- Job categories, `JobCategory` in `app/domain/models.py`. -/
inductive JobCategory
  | TECHNOLOGY
  | HEALTHCARE
  | RETAIL
  | HOSPITALITY
  | MANUFACTURING
  | EDUCATION
  | FINANCE
  | CONSTRUCTION
  | LOGISTICS
  | CUSTOMER_SERVICE
  | SALES
  | ADMINISTRATION
  | OTHER
deriving DecidableEq, Repr

/-- Employment types, `EmploymentType` in `app/domain/models.py`. -/
inductive EmploymentType
  | FULL_TIME
  | PART_TIME
  | CONTRACT
  | TEMPORARY
  | INTERNSHIP
  | FREELANCE
deriving DecidableEq, Repr

/-- The fields of `JobDB` (`app/domain/models.py`) read by the matching core.
Identity/bookkeeping fields (`id`, `created_at`, `updated_at`, `title`,
`description`, `experience_level`, `physical_requirements`, `benefits`) are
never read by any scorer and are omitted. -/
structure JobDB where
  location : String
  category : JobCategory := .OTHER
  employment_type : EmploymentType := .FULL_TIME
  salary_min : Option ℚ := none
  salary_max : Option ℚ := none
  requirements : List String := []
  advantages : List String := []
  required_languages : List String := []
  certifications_required : List String := []
  shift_work : Bool := false
  weekend_work : Bool := false
deriving DecidableEq, Repr

/-- The fields of `CandidateDB` (`app/domain/models.py`) read by the matching
core. Identity/contact/resume fields are never read by any scorer and are
omitted. -/
structure CandidateDB where
  location : String
  experience : List String := []
  skills : List String := []
  languages : List String := []
  certifications : List String := []
  willing_to_work_shifts : Bool := false
  willing_to_work_weekends : Bool := false
  preferred_employment_type : Option EmploymentType := none
  salary_expectation : ℚ
deriving DecidableEq, Repr

/-- `ScoringBreakdown` dataclass, `matching_service.py` lines 38-47. -/
structure ScoringBreakdown where
  location_match : ℚ
  salary_match : ℚ
  requirements_match : ℚ
  advantages_match : ℚ
  language_match : ℚ
  semantic_similarity : ℚ
deriving DecidableEq, Repr

/-- `MatchResult` dataclass, `matching_service.py` lines 59-72 (the dataclass
defaults `score = semantic_score = rule_score = 0.0`, `breakdown = None`). -/
structure MatchResult where
  candidate : CandidateDB
  job : JobDB
  score : ℚ := 0
  semantic_score : ℚ := 0
  rule_score : ℚ := 0
  breakdown : Option ScoringBreakdown := none
  match_reasons : List String := []
deriving DecidableEq, Repr

/-- Scoring weight constants of `MatchingService`, lines 107-114. -/
def SEMANTIC_WEIGHT : ℚ := 0.6

def RULE_WEIGHT : ℚ := 0.4

def LOCATION_MAX : ℚ := 1

def SALARY_MAX : ℚ := 1

def REQUIREMENTS_MAX : ℚ := 1

/-- `_score_location`, lines 234-251. -/
def _score_location (job : JobDB) (candidate : CandidateDB) : ℚ × String :=
  let job_loc := pyStrip (pyLower job.location)
  let cand_loc := pyStrip (pyLower candidate.location)
  if job_loc = cand_loc then (1, "Exact location match")
  else if strContains cand_loc job_loc || strContains job_loc cand_loc then
    (0.8, "Partial location match")
  else (0.3, "Different location")

/-- `_score_salary`, lines 253-285. The source is a cascade of early returns;
this `match` enumerates the same cases: no bounds is neutral 0.5, an
expectation below a present minimum or above a present maximum scores 0.0,
and any remaining case with at least one bound present scores 1.0. The
final `return (0.5, "Salary not specified")` of the source (line 285) is
unreachable. -/
def _score_salary (job : JobDB) (candidate : CandidateDB) : ℚ × String :=
  match job.salary_min, job.salary_max with
  | none, none => (0.5, "No salary constraints")
  | some mn, none =>
    if candidate.salary_expectation < mn then
      (0, "Below minimum salary (expects " ++ toString candidate.salary_expectation
        ++ ", min " ++ toString mn ++ ")")
    else (1, "Above minimum salary (min " ++ toString mn ++ ")")
  | none, some mx =>
    if mx < candidate.salary_expectation then
      (0, "Above maximum salary (expects " ++ toString candidate.salary_expectation
        ++ ", max " ++ toString mx ++ ")")
    else (1, "Below maximum salary (max " ++ toString mx ++ ")")
  | some mn, some mx =>
    if candidate.salary_expectation < mn then
      (0, "Below minimum salary (expects " ++ toString candidate.salary_expectation
        ++ ", min " ++ toString mn ++ ")")
    else if mx < candidate.salary_expectation then
      (0, "Above maximum salary (expects " ++ toString candidate.salary_expectation
        ++ ", max " ++ toString mx ++ ")")
    else (1, "Salary in range (" ++ toString mn ++ "-" ++ toString mx ++ ")")

/-- The searchable text `combined_text` built by `_score_requirements` and
`_score_advantages` (lines 301-304 and 338-340):
`" ".join(experience).lower() + " " + " ".join(skills).lower()`. -/
def combinedText (candidate : CandidateDB) : String :=
  pyLower (pyJoin " " candidate.experience) ++ " " ++ pyLower (pyJoin " " candidate.skills)

/-- `_score_requirements`, lines 287-321. -/
def _score_requirements (job : JobDB) (candidate : CandidateDB) : ℚ × String :=
  if job.requirements = [] then (1, "No requirements specified")
  else
    let combined_text := combinedText candidate
    let matched_requirements :=
      job.requirements.filter (fun req => strContains combined_text (pyLower req))
    let match_fraction := (matched_requirements.length : ℚ) / (job.requirements.length : ℚ)
    if match_fraction = 1 then
      (1, "Meets all " ++ toString job.requirements.length ++ " requirements")
    else if 0 < match_fraction then
      (match_fraction, "Meets " ++ toString matched_requirements.length ++ "/"
        ++ toString job.requirements.length ++ " requirements")
    else (0, "No requirements met")

/-- `_score_advantages`, lines 323-357. -/
def _score_advantages (job : JobDB) (candidate : CandidateDB) : ℚ × String :=
  if job.advantages = [] then (0, "No advantages specified")
  else
    let combined_text := combinedText candidate
    let matched_advantages :=
      job.advantages.filter (fun adv => strContains combined_text (pyLower adv))
    let bonus := min 1 ((matched_advantages.length : ℚ) * 0.2)
    if matched_advantages ≠ [] then
      (bonus, "Has " ++ toString matched_advantages.length ++ "/"
        ++ toString job.advantages.length ++ " nice-to-haves")
    else (0, "No advantages matched")

/-- `_score_languages`, lines 359-389. Python set comprehensions build the
sets of normalised names; these are modelled as deduplicated lists, and the
intersection as a filter over the required set. -/
def _score_languages (job : JobDB) (candidate : CandidateDB) : ℚ × String :=
  if job.required_languages = [] then (0, "No language requirements")
  else
    let required_set := (job.required_languages.map (fun l => pyStrip (pyLower l))).dedup
    let candidate_langs := (candidate.languages.map (fun l => pyStrip (pyLower l))).dedup
    let matched := required_set.filter (fun l => candidate_langs.contains l)
    if matched.length = required_set.length then
      (1, "Speaks all required languages: " ++ pyJoin ", " matched)
    else if matched ≠ [] then
      ((matched.length : ℚ) / (required_set.length : ℚ),
        "Speaks " ++ toString matched.length ++ "/" ++ toString required_set.length
          ++ " required languages")
    else (0, "Missing required languages: " ++ pyJoin ", " required_set)

/-- `_calculate_rule_score`, lines 391-452. -/
def _calculate_rule_score (job : JobDB) (candidate : CandidateDB) :
    ℚ × ScoringBreakdown × List String :=
  let loc := _score_location job candidate
  let sal := _score_salary job candidate
  let req := _score_requirements job candidate
  let adv := _score_advantages job candidate
  let lang := _score_languages job candidate
  let reasons : List String :=
    ["📍 " ++ loc.2, "💰 " ++ sal.2, "✅ " ++ req.2]
      ++ (if 0 < adv.1 then ["⭐ " ++ adv.2] else [])
      ++ (if 0 < lang.1 ∨ job.required_languages ≠ [] then ["🗣️ " ++ lang.2] else [])
  let breakdown : ScoringBreakdown :=
    { location_match := loc.1 * LOCATION_MAX
      salary_match := sal.1 * SALARY_MAX
      requirements_match := req.1 * REQUIREMENTS_MAX
      advantages_match := adv.1
      language_match := lang.1
      semantic_similarity := 0 }
  let core_score :=
    breakdown.location_match + breakdown.salary_match + breakdown.requirements_match
  let normalized_core := core_score / 3
  let total_with_bonus := normalized_core + (adv.1 + lang.1) * 0.1
  let final_rule_score := max 0 (min 1 total_with_bonus)
  (final_rule_score, breakdown, reasons)

/-- Python `round(q, 2)`: round `q * 100` to the nearest integer, ties to
even, then scale back. -/
def roundHalfEven (q : ℚ) : ℤ :=
  if Int.fract q < 1/2 then ⌊q⌋
  else if 1/2 < Int.fract q then ⌊q⌋ + 1
  else if ⌊q⌋ % 2 = 0 then ⌊q⌋ else ⌊q⌋ + 1

/-- Python `round(q, 2)` on the exact rational value. -/
def round2 (q : ℚ) : ℚ := (roundHalfEven (q * 100) : ℚ) / 100

/-- `_calculate_semantic_score`, lines 200-228. The cosine similarity of the
two embedding vectors (line 218) is external ML computation, abstracted as
the oracle `sim`; `some s` is the raw similarity, which the source clamps to
`[0, 1]` (line 221), and `none` is the caught per-text embedding failure
which degrades to `0.0` (lines 223-228). -/
def _calculate_semantic_score (sim : Option ℚ) : ℚ :=
  match sim with
  | none => 0
  | some s => max 0 (min 1 s)

/-- `_calculate_match`, lines 458-536. `sim` is the semantic-similarity
oracle passed through to `_calculate_semantic_score`; `exc` abstracts whether
the body raised an unexpected exception, caught at lines 525-536 (`some e`
carries `str(e)`). -/
def _calculate_match (sim : Option ℚ) (exc : Option String)
    (job : JobDB) (candidate : CandidateDB) : MatchResult :=
  match exc with
  | some e =>
    { candidate := candidate, job := job, score := 0,
      match_reasons := ["❌ Error during matching: " ++ e] }
  | none =>
    let semantic_score := _calculate_semantic_score sim
    let rbr := _calculate_rule_score job candidate
    let rule_score := rbr.1
    let reasons := rbr.2.2
    let breakdown : ScoringBreakdown := { rbr.2.1 with semantic_similarity := semantic_score }
    if breakdown.salary_match = 0 then
      { candidate := candidate, job := job, score := 0,
        semantic_score := semantic_score * 100,
        rule_score := rule_score * 100,
        breakdown := some breakdown,
        match_reasons := reasons ++ ["❌ REJECTED: Salary mismatch"] }
    else if breakdown.requirements_match = 0 then
      { candidate := candidate, job := job, score := 0,
        semantic_score := semantic_score * 100,
        rule_score := rule_score * 100,
        breakdown := some breakdown,
        match_reasons := reasons ++ ["❌ REJECTED: Missing critical requirements"] }
    else
      let final_score := SEMANTIC_WEIGHT * semantic_score + RULE_WEIGHT * rule_score
      let final_percentage := final_score * 100
      { candidate := candidate, job := job,
        score := round2 final_percentage,
        semantic_score := round2 (semantic_score * 100),
        rule_score := round2 (rule_score * 100),
        breakdown := some breakdown,
        match_reasons := reasons }

/-- The per-category weight dictionaries of
`CategoryMatchingStrategy.get_scoring_weights`
(`category_matching.py` lines 16-76). Every dictionary defines the keys
`skills`, `experience`, `education`, `languages` and `availability`;
`certifications` is present only in the HEALTHCARE, MANUFACTURING and
default dictionaries, hence an `Option`. -/
structure Weights where
  skills : ℚ
  experience : ℚ
  education : ℚ
  languages : ℚ
  availability : ℚ
  certifications : Option ℚ := none
deriving DecidableEq, Repr

/-- `get_scoring_weights`, `category_matching.py` lines 16-76. -/
def get_scoring_weights (category : JobCategory) : Weights :=
  match category with
  | .TECHNOLOGY =>
    { skills := 0.40, experience := 0.25, education := 0.20,
      languages := 0.10, availability := 0.05 }
  | .RETAIL =>
    { skills := 0.15, experience := 0.20, education := 0.05,
      languages := 0.20, availability := 0.40 }
  | .HOSPITALITY =>
    { skills := 0.15, experience := 0.20, education := 0.05,
      languages := 0.30, availability := 0.30 }
  | .HEALTHCARE =>
    { skills := 0.25, experience := 0.25, education := 0.20,
      languages := 0.15, availability := 0.15, certifications := some 0.30 }
  | .MANUFACTURING =>
    { skills := 0.25, experience := 0.30, education := 0.05,
      languages := 0.05, availability := 0.25, certifications := some 0.10 }
  | .CUSTOMER_SERVICE =>
    { skills := 0.20, experience := 0.20, education := 0.10,
      languages := 0.35, availability := 0.15 }
  | _ =>
    { skills := 0.25, experience := 0.25, education := 0.15,
      languages := 0.15, availability := 0.15, certifications := some 0.05 }

/-- `CategoryMatchingStrategy.score_availability`, `category_matching.py`
lines 78-105. The source accumulates `score` and a `reasons` list with early
returns on the two hard filters; this definition enumerates the same cases
(shift dimension first, then weekend), producing the identical score and the
identical `" | "`-joined reason string. -/
def score_availability (job : JobDB) (candidate : CandidateDB) : ℚ × String :=
  if job.shift_work then
    if candidate.willing_to_work_shifts then
      if job.weekend_work then
        if candidate.willing_to_work_weekends then
          (1, "✅ Willing to work shifts | ✅ Willing to work weekends")
        else
          (0, "✅ Willing to work shifts | ⚠️ Not willing to work weekends (required)")
      else (1, "✅ Willing to work shifts")
    else (0, "⚠️ Not willing to work shifts (required)")
  else
    if job.weekend_work then
      if candidate.willing_to_work_weekends then (1, "✅ Willing to work weekends")
      else (0, "⚠️ Not willing to work weekends (required)")
    else (1, "No special availability required")

/-- `CategoryMatchingStrategy.score_certifications`, `category_matching.py`
lines 107-121 (Python sets modelled as deduplicated lowered lists). -/
def score_certifications (job : JobDB) (candidate : CandidateDB) : ℚ × String :=
  let required_certs := (job.certifications_required.map pyLower).dedup
  let candidate_certs := (candidate.certifications.map pyLower).dedup
  if required_certs = [] then (1, "No certifications required")
  else
    let matched := required_certs.filter (fun c => candidate_certs.contains c)
    let missing := required_certs.filter (fun c => !(candidate_certs.contains c))
    if missing ≠ [] then (0, "❌ Missing certifications: " ++ pyJoin ", " missing)
    else (1, "✅ Has all required certifications: " ++ pyJoin ", " matched)

/-- `CategoryMatchingStrategy.score_employment_type`, `category_matching.py`
lines 123-131. -/
def score_employment_type (job : JobDB) (candidate : CandidateDB) : ℚ × String :=
  match candidate.preferred_employment_type with
  | none => (0.5, "No employment type preference")
  | some p =>
    if job.employment_type = p then (1, "✅ Prefers employment type")
    else (0.3, "⚠️ Prefers a different employment type")

/-- `_calculate_rule_score_with_category`, `matching_service.py` lines
689-767. On an availability or certification hard filter the source returns
`(0.0, None, reasons)` immediately; otherwise the weighted total is returned
unclamped. The source reads `weights.get("skills", 0.25)`,
`weights.get("languages", 0.15)` and `weights.get("availability", 0.15)`,
whose defaults are dead because every weight dictionary defines those keys;
`weights.get("certifications", 0.10)` is `certifications.getD 0.10` here. -/
def _calculate_rule_score_with_category (job : JobDB) (candidate : CandidateDB) :
    ℚ × Option ScoringBreakdown × List String :=
  let weights := get_scoring_weights job.category
  let loc := _score_location job candidate
  let sal := _score_salary job candidate
  let req := _score_requirements job candidate
  let lang := _score_languages job candidate
  let reasons : List String :=
    ["📍 " ++ loc.2, "💰 " ++ sal.2, "✅ " ++ req.2, "🗣️ " ++ lang.2]
  let avail := score_availability job candidate
  if avail.1 = 0 then
    (0, none, reasons ++ ["❌ REJECTED: " ++ avail.2])
  else
    let reasons := reasons ++ ["📅 " ++ avail.2]
    let cert := score_certifications job candidate
    if cert.1 = 0 then
      (0, none, reasons ++ ["❌ REJECTED: " ++ cert.2])
    else
      let reasons := reasons ++ ["📜 " ++ cert.2]
      let emp := score_employment_type job candidate
      let reasons := reasons ++ ["📋 " ++ emp.2]
      let final_score :=
        loc.1 * 0.15 + sal.1 * 0.15 + req.1 * weights.skills
          + lang.1 * weights.languages + avail.1 * weights.availability
          + cert.1 * weights.certifications.getD 0.10 + emp.1 * 0.10
      let breakdown : ScoringBreakdown :=
        { location_match := loc.1, salary_match := sal.1, requirements_match := req.1,
          advantages_match := 0, language_match := lang.1, semantic_similarity := 0 }
      (final_score, some breakdown, reasons)

/-- Insertion into the embedding cache. The cache (`self._embedding_cache`,
a `cachetools.TTLCache`, lines 129-132) keeps entries in insertion order
(entries all share one TTL, so expiry order equals insertion order); before
inserting, eviction pops oldest entries while the cache is full. The model
keeps the association list in insertion order, oldest first, and assumes
`1 ≤ maxsize` (for `maxsize = 0` `cachetools` raises instead). No wall-clock
time passes inside the model, so TTL expiry between operations does not
occur. -/
def cacheInsert {V : Type} (maxsize : ℕ) (key : String) (v : V)
    (cache : List (String × V)) : List (String × V) :=
  cache.drop (cache.length + 1 - maxsize) ++ [(key, v)]

/-- `_get_embedding`, lines 147-170, together with `_get_text_hash`
(lines 143-145). The md5 hex digest is abstracted as `hashFn` and the
sentence-transformers `model.encode` as `encode`. Returns the vector, the
cache after the call, and whether the provider (`model.encode`) was
invoked. -/
def _get_embedding {V : Type} (hashFn : String → String) (encode : String → V)
    (maxsize : ℕ) (text : String) (cache : List (String × V)) :
    V × List (String × V) × Bool :=
  let cache_key := hashFn text
  match List.lookup cache_key cache with
  | some v => (v, cache, false)
  | none =>
    let embedding := encode text
    (embedding, cacheInsert maxsize cache_key embedding cache, true)

/-- One element of the list returned by the ranking operations: the dict
built at `matching_service.py` lines 575-588 (respectively 640-653), with
key `candidate` (respectively `job`) modelled as `counterpart` and the
`breakdown` sub-dict flattened into the five `breakdown_*` fields. -/
structure RankEntry (α : Type) where
  counterpart : α
  score : ℚ
  semantic_score : ℚ
  rule_score : ℚ
  match_reasons : List String
  breakdown_location : ℚ
  breakdown_salary : ℚ
  breakdown_requirements : ℚ
  breakdown_advantages : ℚ
  breakdown_languages : ℚ
deriving DecidableEq, Repr

/-- Builds the response dict for one kept match (lines 575-588 / 640-653);
each breakdown entry is `x.field if match.breakdown else 0`. -/
def matchEntry {α : Type} (counterpart : α) (m : MatchResult) : RankEntry α :=
  { counterpart := counterpart
    score := m.score
    semantic_score := m.semantic_score
    rule_score := m.rule_score
    match_reasons := m.match_reasons
    breakdown_location := (m.breakdown.map (·.location_match)).getD 0
    breakdown_salary := (m.breakdown.map (·.salary_match)).getD 0
    breakdown_requirements := (m.breakdown.map (·.requirements_match)).getD 0
    breakdown_advantages := (m.breakdown.map (·.advantages_match)).getD 0
    breakdown_languages := (m.breakdown.map (·.language_match)).getD 0 }

/-- The descending-score order used by `results.sort(key=..., reverse=True)`
(lines 598 and 663). -/
def scoreGE {α : Type} (a b : RankEntry α) : Prop := b.score ≤ a.score

instance {α : Type} : DecidableRel (scoreGE (α := α)) :=
  fun a b => inferInstanceAs (Decidable (b.score ≤ a.score))

instance {α : Type} : IsTotal (RankEntry α) scoreGE :=
  ⟨fun a b => le_total b.score a.score⟩

instance {α : Type} : IsTrans (RankEntry α) scoreGE :=
  ⟨fun _ _ _ hab hbc => le_trans hbc hab⟩

/-- Python `list.sort` is stable, and with `reverse=True` it orders by
descending key while equal-key elements keep their original relative order.
A stable descending sort is extensionally unique, so it is modelled by
insertion sort with the reflexive descending order `scoreGE`. -/
def sortByScoreDesc {α : Type} (results : List (RankEntry α)) : List (RankEntry α) :=
  List.insertionSort scoreGE results

/-- The result-collection loop of `rank_candidates_for_job` (lines 560-595):
evaluate each candidate via `_calculate_match`, skip those with
`match.score < min_score`, and collect the response dicts in input order.
The oracles `sim` and `exc` give each pair its semantic similarity and
unexpected-exception outcome. -/
def keptCandidateEntries (sim : CandidateDB → Option ℚ) (exc : CandidateDB → Option String)
    (job : JobDB) (candidates : List CandidateDB) (min_score : ℚ) :
    List (RankEntry CandidateDB) :=
  candidates.filterMap (fun candidate =>
    let m := _calculate_match (sim candidate) (exc candidate) job candidate
    if m.score < min_score then none else some (matchEntry candidate m))

/-- `rank_candidates_for_job`, lines 538-605: collect the kept entries, then
sort by score descending (stable). -/
def rank_candidates_for_job (sim : CandidateDB → Option ℚ) (exc : CandidateDB → Option String)
    (job : JobDB) (candidates : List CandidateDB) (min_score : ℚ) :
    List (RankEntry CandidateDB) :=
  sortByScoreDesc (keptCandidateEntries sim exc job candidates min_score)

/-- The result-collection loop of `rank_jobs_for_candidate` (lines 629-660),
symmetric to `keptCandidateEntries`. -/
def keptJobEntries (sim : JobDB → Option ℚ) (exc : JobDB → Option String)
    (candidate : CandidateDB) (jobs : List JobDB) (min_score : ℚ) :
    List (RankEntry JobDB) :=
  jobs.filterMap (fun job =>
    let m := _calculate_match (sim job) (exc job) job candidate
    if m.score < min_score then none else some (matchEntry job m))

/-- `rank_jobs_for_candidate`, lines 607-670. -/
def rank_jobs_for_candidate (sim : JobDB → Option ℚ) (exc : JobDB → Option String)
    (candidate : CandidateDB) (jobs : List JobDB) (min_score : ℚ) :
    List (RankEntry JobDB) :=
  sortByScoreDesc (keptJobEntries sim exc candidate jobs min_score)

/-! ## Helper lemmas -/

/-- Closed form of the requirements sub-score: 1 for a job without
requirements, else the matched fraction. -/
theorem _score_requirements_fst (job : JobDB) (candidate : CandidateDB) :
    (_score_requirements job candidate).1 =
      if job.requirements = [] then 1
      else ((job.requirements.filter
          (fun req => strContains (combinedText candidate) (pyLower req))).length : ℚ)
        / (job.requirements.length : ℚ) := by
  unfold _score_requirements
  dsimp only
  split_ifs with h h1 h2
  · norm_num
  · simpa using h1.symm
  · rfl
  · have hnn : 0 ≤ ((job.requirements.filter
        (fun req => strContains (combinedText candidate) (pyLower req))).length : ℚ)
        / (job.requirements.length : ℚ) := by positivity
    have h0 : ((job.requirements.filter
        (fun req => strContains (combinedText candidate) (pyLower req))).length : ℚ)
        / (job.requirements.length : ℚ) = 0 := le_antisymm (not_lt.mp h2) hnn
    show (0 : ℚ) = _
    rw [h0]

theorem _score_location_bounds (job : JobDB) (candidate : CandidateDB) :
    0 ≤ (_score_location job candidate).1 ∧ (_score_location job candidate).1 ≤ 1 := by
  unfold _score_location
  dsimp only
  split_ifs <;> norm_num

theorem _score_salary_bounds (job : JobDB) (candidate : CandidateDB) :
    0 ≤ (_score_salary job candidate).1 ∧ (_score_salary job candidate).1 ≤ 1 := by
  unfold _score_salary
  rcases job.salary_min with _ | mn <;> rcases job.salary_max with _ | mx <;>
    dsimp only <;> (try split_ifs) <;> norm_num

theorem _score_requirements_bounds (job : JobDB) (candidate : CandidateDB) :
    0 ≤ (_score_requirements job candidate).1 ∧ (_score_requirements job candidate).1 ≤ 1 := by
  rw [_score_requirements_fst]
  split_ifs with h
  · norm_num
  · have hpos : 0 < (job.requirements.length : ℚ) := by
      have := List.length_pos.mpr h
      exact_mod_cast this
    constructor
    · positivity
    · rw [div_le_one hpos]
      exact_mod_cast List.length_filter_le _ _

theorem _score_advantages_bounds (job : JobDB) (candidate : CandidateDB) :
    0 ≤ (_score_advantages job candidate).1 ∧ (_score_advantages job candidate).1 ≤ 1 := by
  unfold _score_advantages
  dsimp only
  split_ifs <;> dsimp only <;> refine ⟨?_, ?_⟩
  · norm_num
  · norm_num
  · exact le_min (by norm_num)
      (mul_nonneg (Nat.cast_nonneg _) (by norm_num))
  · exact min_le_left _ _
  · norm_num
  · norm_num

theorem _score_languages_fst (job : JobDB) (candidate : CandidateDB) :
    (_score_languages job candidate).1 =
      if job.required_languages = [] then 0
      else
        (((job.required_languages.map (fun l => pyStrip (pyLower l))).dedup.filter
            (fun l => ((candidate.languages.map
              (fun l => pyStrip (pyLower l))).dedup.contains l))).length : ℚ)
          / ((job.required_languages.map (fun l => pyStrip (pyLower l))).dedup.length : ℚ) := by
  unfold _score_languages
  dsimp only
  split_ifs with h h1 h2
  · norm_num
  · have hne : (job.required_languages.map (fun l => pyStrip (pyLower l))).dedup ≠ [] := by
      simp only [ne_eq, List.dedup_eq_nil, List.map_eq_nil_iff]
      exact h
    have hn0 : ((job.required_languages.map
        (fun l => pyStrip (pyLower l))).dedup.length : ℚ) ≠ 0 := by
      have hlen := List.length_pos.mpr hne
      exact ne_of_gt (by exact_mod_cast hlen)
    show (1 : ℚ) = _
    rw [h1, div_self hn0]
  · rfl
  · have h0 : (job.required_languages.map (fun l => pyStrip (pyLower l))).dedup.filter
        (fun l => ((candidate.languages.map
          (fun l => pyStrip (pyLower l))).dedup.contains l)) = [] := not_ne_iff.mp h2
    show (0 : ℚ) = _
    rw [h0]
    norm_num

theorem _score_languages_bounds (job : JobDB) (candidate : CandidateDB) :
    0 ≤ (_score_languages job candidate).1 ∧ (_score_languages job candidate).1 ≤ 1 := by
  rw [_score_languages_fst]
  split_ifs with h
  · norm_num
  · have hne : (job.required_languages.map (fun l => pyStrip (pyLower l))).dedup ≠ [] := by
      simp only [ne_eq, List.dedup_eq_nil, List.map_eq_nil_iff]
      exact h
    have hpos : 0 < ((job.required_languages.map
        (fun l => pyStrip (pyLower l))).dedup.length : ℚ) := by
      have := List.length_pos.mpr hne
      exact_mod_cast this
    constructor
    · positivity
    · rw [div_le_one hpos]
      exact_mod_cast List.length_filter_le _ _

theorem _calculate_rule_score_fst (job : JobDB) (candidate : CandidateDB) :
    (_calculate_rule_score job candidate).1 =
      max 0 (min 1
        (((_score_location job candidate).1 * LOCATION_MAX
            + (_score_salary job candidate).1 * SALARY_MAX
            + (_score_requirements job candidate).1 * REQUIREMENTS_MAX) / 3
          + ((_score_advantages job candidate).1 + (_score_languages job candidate).1) * 0.1)) :=
  rfl

theorem _calculate_rule_score_bounds (job : JobDB) (candidate : CandidateDB) :
    0 ≤ (_calculate_rule_score job candidate).1 ∧ (_calculate_rule_score job candidate).1 ≤ 1 := by
  rw [_calculate_rule_score_fst]
  constructor
  · exact le_max_left _ _
  · exact max_le (by norm_num) (le_trans (min_le_left _ _) (by norm_num))

theorem _calculate_semantic_score_bounds (sim : Option ℚ) :
    0 ≤ _calculate_semantic_score sim ∧ _calculate_semantic_score sim ≤ 1 := by
  unfold _calculate_semantic_score
  rcases sim with _ | s
  · norm_num
  · constructor
    · exact le_max_left _ _
    · exact max_le (by norm_num) (le_trans (min_le_left _ _) (by norm_num))

theorem roundHalfEven_nonneg (q : ℚ) (h : 0 ≤ q) : 0 ≤ roundHalfEven q := by
  have hf : (0:ℤ) ≤ ⌊q⌋ := Int.floor_nonneg.mpr h
  unfold roundHalfEven
  split_ifs <;> omega

theorem roundHalfEven_le (q : ℚ) (B : ℤ) (h : q ≤ B) : roundHalfEven q ≤ B := by
  have hfl : ⌊q⌋ ≤ B := by
    have := Int.floor_le_floor h
    simpa using this
  unfold roundHalfEven
  split_ifs with h1 h2 h3
  · exact hfl
  · have hfr : (1:ℚ)/2 < Int.fract q := h2
    have hq : (⌊q⌋ : ℚ) + 1/2 < q := by
      have := Int.fract_add_floor q
      rw [Int.fract] at hfr
      linarith
    have : (⌊q⌋ : ℚ) < (B : ℚ) := by
      have hB : q ≤ (B : ℚ) := h
      linarith
    have : ⌊q⌋ < B := by exact_mod_cast this
    omega
  · exact hfl
  · have hfr : (1:ℚ)/2 ≤ Int.fract q := le_of_not_lt h1
    have hq : (⌊q⌋ : ℚ) + 1/2 ≤ q := by
      rw [Int.fract] at hfr
      linarith
    have : (⌊q⌋ : ℚ) + 1/2 ≤ (B : ℚ) := le_trans hq h
    have : ⌊q⌋ < B := by
      by_contra hc
      push_neg at hc
      have : (B : ℚ) ≤ (⌊q⌋ : ℚ) := by exact_mod_cast hc
      linarith
    omega

theorem round2_bounds (q : ℚ) (h0 : 0 ≤ q) (h100 : q ≤ 100) :
    0 ≤ round2 q ∧ round2 q ≤ 100 := by
  have hn : 0 ≤ roundHalfEven (q * 100) := roundHalfEven_nonneg _ (by positivity)
  have hl : roundHalfEven (q * 100) ≤ 10000 := by
    apply roundHalfEven_le
    push_cast
    linarith
  unfold round2
  constructor
  · positivity
  · rw [div_le_iff₀ (by norm_num : (0:ℚ) < 100)]
    have : (roundHalfEven (q * 100) : ℚ) ≤ 10000 := by exact_mod_cast hl
    linarith

/-! ## Claim theorems -/

/-- C3: for every job and candidate, the salary scorer returns 0.5 when the
job has neither bound; 0.0 when a present `salary_min` exceeds the
expectation; 0.0 when a present `salary_max` is below the expectation; and
1.0 in every remaining case in which at least one bound is present. -/
theorem salary_scorer_cases (job : JobDB) (candidate : CandidateDB) :
    (job.salary_min = none ∧ job.salary_max = none → (_score_salary job candidate).1 = 0.5)
    ∧ (∀ mn, job.salary_min = some mn → candidate.salary_expectation < mn →
        (_score_salary job candidate).1 = 0)
    ∧ (∀ mx, job.salary_max = some mx → mx < candidate.salary_expectation →
        (_score_salary job candidate).1 = 0)
    ∧ ((job.salary_min ≠ none ∨ job.salary_max ≠ none) →
        (∀ mn, job.salary_min = some mn → mn ≤ candidate.salary_expectation) →
        (∀ mx, job.salary_max = some mx → candidate.salary_expectation ≤ mx) →
        (_score_salary job candidate).1 = 1) := by
  refine ⟨?_, ?_, ?_, ?_⟩
  · rintro ⟨h1, h2⟩
    unfold _score_salary
    rw [h1, h2]
  · intro mn h1 h2
    unfold _score_salary
    rw [h1]
    rcases hmx : job.salary_max with _ | mx <;> dsimp only <;> rw [if_pos h2]
  · intro mx h1 h2
    unfold _score_salary
    rw [h1]
    rcases hmn : job.salary_min with _ | mn <;> dsimp only
    · rw [if_pos h2]
    · by_cases ha : candidate.salary_expectation < mn
      · rw [if_pos ha]
      · rw [if_neg ha, if_pos h2]
  · intro h1 h2 h3
    unfold _score_salary
    rcases hmn : job.salary_min with _ | mn <;> rcases hmx : job.salary_max with _ | mx <;>
      dsimp only
    · rcases h1 with h | h
      · exact absurd hmn h
      · exact absurd hmx h
    · rw [if_neg (not_lt.mpr (h3 mx hmx))]
    · rw [if_neg (not_lt.mpr (h2 mn hmn))]
    · rw [if_neg (not_lt.mpr (h2 mn hmn)), if_neg (not_lt.mpr (h3 mx hmx))]

/-- C3 witness: a candidate whose expectation 9000 exceeds the maximum 8000
of a job bounded by [5000, 8000] receives salary sub-score 0. -/
theorem salary_scorer_cases_witness :
    (_score_salary
      { location := "tlv", salary_min := some 5000, salary_max := some 8000 }
      { location := "tlv", salary_expectation := 9000 }).1 = 0 :=
  (salary_scorer_cases _ _).2.2.1 8000 rfl (by norm_num)

/-- C4: the requirements scorer returns 1.0 for a job without requirements;
otherwise it returns the fraction of required items occurring case
insensitively in the combined experience-and-skills text, which is 0 exactly
when no requirement matches. -/
theorem requirements_scorer_fraction (job : JobDB) (candidate : CandidateDB) :
    (job.requirements = [] → (_score_requirements job candidate).1 = 1)
    ∧ (job.requirements ≠ [] →
        (_score_requirements job candidate).1 =
          ((job.requirements.filter
              (fun req => strContains (combinedText candidate) (pyLower req))).length : ℚ)
            / (job.requirements.length : ℚ)
        ∧ ((_score_requirements job candidate).1 = 0 ↔
            job.requirements.filter
              (fun req => strContains (combinedText candidate) (pyLower req)) = [])) := by
  constructor
  · intro h
    rw [_score_requirements_fst, if_pos h]
  · intro h
    rw [_score_requirements_fst, if_neg h]
    have hpos : (0:ℚ) < (job.requirements.length : ℚ) := by
      have := List.length_pos.mpr h
      exact_mod_cast this
    refine ⟨rfl, ?_⟩
    rw [div_eq_zero_iff]
    constructor
    · rintro (h1 | h1)
      · rw [Nat.cast_eq_zero, List.length_eq_zero] at h1
        exact h1
      · exact absurd h1 (ne_of_gt hpos)
    · intro h1
      left
      rw [Nat.cast_eq_zero, List.length_eq_zero]
      exact h1

/-- C4 witness: a job with requirements ["python", "sql"] against a candidate
whose text contains only "python" scores the fraction 1/2, and a job with no
requirements scores 1. -/
theorem requirements_scorer_fraction_witness :
    (_score_requirements { location := "a" }
        { location := "a", salary_expectation := 1 }).1 = 1
    ∧ (_score_requirements
        { location := "a", requirements := ["python", "sql"] }
        { location := "a", experience := ["python dev"], salary_expectation := 1 }).1 = 1/2 := by
  constructor
  · exact (requirements_scorer_fraction _ _).1 rfl
  · have h := ((requirements_scorer_fraction
      { location := "a", requirements := ["python", "sql"] }
      { location := "a", experience := ["python dev"], salary_expectation := 1 }).2
        (by decide)).1
    rw [h]
    have hf : (["python", "sql"].filter
        (fun req => strContains (combinedText
          { location := "a", experience := ["python dev"], salary_expectation := 1 })
          (pyLower req))) = ["python"] := by decide
    rw [show ({ location := "a", requirements := ["python", "sql"] } : JobDB).requirements
        = ["python", "sql"] from rfl] at *
    rw [hf]
    norm_num

/-- C8: the availability scorer hard-rejects (score 0) exactly when the job
requires shift work the candidate refuses, or weekend work the candidate
refuses; in every other case both dimensions contribute 0.5 each, giving 1;
and in category mode an availability score of 0 forces the rule score to 0
with a rejection reason appended. -/
theorem availability_hard_reject (job : JobDB) (candidate : CandidateDB) :
    ((score_availability job candidate).1 = 0 ↔
      ((job.shift_work = true ∧ candidate.willing_to_work_shifts = false)
        ∨ (job.weekend_work = true ∧ candidate.willing_to_work_weekends = false)))
    ∧ (¬((job.shift_work = true ∧ candidate.willing_to_work_shifts = false)
        ∨ (job.weekend_work = true ∧ candidate.willing_to_work_weekends = false)) →
      (score_availability job candidate).1 = 1)
    ∧ ((score_availability job candidate).1 = 0 →
      (_calculate_rule_score_with_category job candidate).1 = 0
      ∧ ("❌ REJECTED: " ++ (score_availability job candidate).2)
          ∈ (_calculate_rule_score_with_category job candidate).2.2) := by
  refine ⟨?_, ?_, ?_⟩
  · cases hs : job.shift_work <;> cases hws : candidate.willing_to_work_shifts <;>
      cases hw : job.weekend_work <;> cases hww : candidate.willing_to_work_weekends <;>
      norm_num [score_availability, hs, hws, hw, hww]
  · intro hn
    cases hs : job.shift_work <;> cases hws : candidate.willing_to_work_shifts <;>
      cases hw : job.weekend_work <;> cases hww : candidate.willing_to_work_weekends <;>
      simp_all [score_availability]
  · intro h0
    refine ⟨?_, ?_⟩
    · simp only [_calculate_rule_score_with_category]
      rw [if_pos h0]
    · simp only [_calculate_rule_score_with_category]
      rw [if_pos h0]
      exact List.mem_append_right _ (List.mem_singleton_self _)

/-- C8 witness: a shift-work job with an unwilling candidate is evaluated to
category rule score 0. -/
theorem availability_hard_reject_witness :
    (_calculate_rule_score_with_category
      { location := "a", shift_work := true }
      { location := "b", salary_expectation := 1 }).1 = 0 :=
  ((availability_hard_reject _ _).2.2
    (((availability_hard_reject
        { location := "a", shift_work := true }
        { location := "b", salary_expectation := 1 }).1).mpr (Or.inl ⟨rfl, rfl⟩))).1

/-- The concrete Technology-category pair used for C10: exact location
match, salary inside both bounds, all requirements, languages and
certifications matched, shift and weekend work required and accepted, and a
matching preferred employment type. -/
def techJob : JobDB :=
  { location := "tel aviv", category := .TECHNOLOGY, employment_type := .FULL_TIME,
    salary_min := some 5000, salary_max := some 8000,
    requirements := ["python"], advantages := [],
    required_languages := ["english"],
    certifications_required := ["forklift license"],
    shift_work := true, weekend_work := true }

def techCandidate : CandidateDB :=
  { location := "tel aviv", experience := ["3 years python developer"],
    skills := ["python"], languages := ["english"],
    certifications := ["Forklift License"],
    willing_to_work_shifts := true, willing_to_work_weekends := true,
    preferred_employment_type := some .FULL_TIME, salary_expectation := 6000 }

/-- C10: for the Technology-category pair `techJob`/`techCandidate`, in which
every sub-score is 1, the category-mode rule score is 1.05 — the weighted
coefficients 0.15 + 0.15 + 0.40 + 0.10 + 0.05 + 0.10 + 0.10 sum to 1.05 and
`_calculate_rule_score_with_category` applies no clamp before returning. -/
theorem category_rule_score_can_exceed_one :
    (_calculate_rule_score_with_category techJob techCandidate).1 = 1.05
    ∧ 1 < (_calculate_rule_score_with_category techJob techCandidate).1 := by
  have hloc1 : (_score_location techJob techCandidate).1 = 1 := by
    norm_num [_score_location, techJob, techCandidate]
  have hsal1 : (_score_salary techJob techCandidate).1 = 1 := by
    norm_num [_score_salary, techJob, techCandidate]
  have hreqf : techJob.requirements.filter
      (fun req => strContains (combinedText techCandidate) (pyLower req)) = ["python"] := by
    decide
  have hreq1 : (_score_requirements techJob techCandidate).1 = 1 := by
    rw [_score_requirements_fst, if_neg (by decide), hreqf]
    norm_num [techJob]
  have hlangf : ((techJob.required_languages.map (fun l => pyStrip (pyLower l))).dedup.filter
      (fun l => ((techCandidate.languages.map
        (fun l => pyStrip (pyLower l))).dedup.contains l))) = ["english"] := by
    decide
  have hlangd : (techJob.required_languages.map
      (fun l => pyStrip (pyLower l))).dedup = ["english"] := by decide
  have hlang1 : (_score_languages techJob techCandidate).1 = 1 := by
    rw [_score_languages_fst, if_neg (by decide), hlangf, hlangd]
    norm_num
  have havail1 : (score_availability techJob techCandidate).1 = 1 := by
    norm_num [score_availability, techJob, techCandidate]
  have hcert1 : (score_certifications techJob techCandidate).1 = 1 := by
    simp only [score_certifications]
    rw [if_neg (by decide), if_neg (by decide)]
  have hemp1 : (score_employment_type techJob techCandidate).1 = 1 := by
    norm_num [score_employment_type, techJob, techCandidate]
  have hw : get_scoring_weights techJob.category =
      { skills := 0.40, experience := 0.25, education := 0.20,
        languages := 0.10, availability := 0.05 } := by
    norm_num [get_scoring_weights, techJob]
  have hmain : (_calculate_rule_score_with_category techJob techCandidate).1 = 1.05 := by
    simp only [_calculate_rule_score_with_category]
    rw [if_neg (by rw [havail1]; norm_num), if_neg (by rw [hcert1]; norm_num)]
    show (_score_location techJob techCandidate).1 * 0.15
        + (_score_salary techJob techCandidate).1 * 0.15
        + (_score_requirements techJob techCandidate).1
          * (get_scoring_weights techJob.category).skills
        + (_score_languages techJob techCandidate).1
          * (get_scoring_weights techJob.category).languages
        + (score_availability techJob techCandidate).1
          * (get_scoring_weights techJob.category).availability
        + (score_certifications techJob techCandidate).1
          * ((get_scoring_weights techJob.category).certifications.getD 0.10)
        + (score_employment_type techJob techCandidate).1 * 0.10 = 1.05
    rw [hloc1, hsal1, hreq1, hlang1, havail1, hcert1, hemp1, hw]
    norm_num [Option.getD]
  exact ⟨hmain, by rw [hmain]; norm_num⟩

theorem _calculate_rule_score_salary_match (job : JobDB) (candidate : CandidateDB) :
    (_calculate_rule_score job candidate).2.1.salary_match
      = (_score_salary job candidate).1 * SALARY_MAX := rfl

theorem _calculate_rule_score_requirements_match (job : JobDB) (candidate : CandidateDB) :
    (_calculate_rule_score job candidate).2.1.requirements_match
      = (_score_requirements job candidate).1 * REQUIREMENTS_MAX := rfl

/-- C1: whenever the salary sub-score or the requirements sub-score is 0,
`_calculate_match` forces the final score to 0 for every semantic similarity,
appends a rejection reason, and still reports the computed semantic score. -/
theorem hard_reject_forces_zero (sim : Option ℚ) (job : JobDB) (candidate : CandidateDB)
    (h : (_score_salary job candidate).1 = 0 ∨ (_score_requirements job candidate).1 = 0) :
    (_calculate_match sim none job candidate).score = 0
    ∧ (_calculate_match sim none job candidate).semantic_score
        = _calculate_semantic_score sim * 100
    ∧ ("❌ REJECTED: Salary mismatch"
          ∈ (_calculate_match sim none job candidate).match_reasons
        ∨ "❌ REJECTED: Missing critical requirements"
          ∈ (_calculate_match sim none job candidate).match_reasons) := by
  simp only [_calculate_match]
  split_ifs with h1 h2
  · exact ⟨rfl, rfl, Or.inl (List.mem_append_right _ (List.mem_singleton_self _))⟩
  · exact ⟨rfl, rfl, Or.inr (List.mem_append_right _ (List.mem_singleton_self _))⟩
  · exfalso
    rcases h with hs | hr
    · apply h1
      show (_score_salary job candidate).1 * SALARY_MAX = 0
      rw [hs, zero_mul]
    · apply h2
      show (_score_requirements job candidate).1 * REQUIREMENTS_MAX = 0
      rw [hr, zero_mul]

/-- C1 witness: a candidate expecting 9000 against a job capped at 8000 is
hard-rejected with score 0 even at semantic similarity 0.9. -/
theorem hard_reject_forces_zero_witness :
    (_calculate_match (some 0.9) none
      { location := "a", salary_min := some 5000, salary_max := some 8000 }
      { location := "a", salary_expectation := 9000 }).score = 0 :=
  (hard_reject_forces_zero (some 0.9) _ _
    (Or.inl (by norm_num [_score_salary]))).1

/-- C2: for every pair (and every semantic-similarity and exception
outcome), the score, semantic score and rule score of the returned
`MatchResult` all lie in [0, 100]. -/
theorem match_scores_bounded (sim : Option ℚ) (exc : Option String)
    (job : JobDB) (candidate : CandidateDB) :
    (0 ≤ (_calculate_match sim exc job candidate).score
      ∧ (_calculate_match sim exc job candidate).score ≤ 100)
    ∧ (0 ≤ (_calculate_match sim exc job candidate).semantic_score
      ∧ (_calculate_match sim exc job candidate).semantic_score ≤ 100)
    ∧ (0 ≤ (_calculate_match sim exc job candidate).rule_score
      ∧ (_calculate_match sim exc job candidate).rule_score ≤ 100) := by
  obtain ⟨hs0, hs1⟩ := _calculate_semantic_score_bounds sim
  obtain ⟨hr0, hr1⟩ := _calculate_rule_score_bounds job candidate
  have hsem0 : 0 ≤ _calculate_semantic_score sim * 100 := by linarith
  have hsem1 : _calculate_semantic_score sim * 100 ≤ 100 := by linarith
  have hrule0 : 0 ≤ (_calculate_rule_score job candidate).1 * 100 := by linarith
  have hrule1 : (_calculate_rule_score job candidate).1 * 100 ≤ 100 := by linarith
  rcases exc with _ | e
  · simp only [_calculate_match]
    split_ifs with h1 h2
    · exact ⟨⟨le_refl 0, by norm_num⟩, ⟨hsem0, hsem1⟩, ⟨hrule0, hrule1⟩⟩
    · exact ⟨⟨le_refl 0, by norm_num⟩, ⟨hsem0, hsem1⟩, ⟨hrule0, hrule1⟩⟩
    · have hf0 : 0 ≤ SEMANTIC_WEIGHT * _calculate_semantic_score sim
          + RULE_WEIGHT * (_calculate_rule_score job candidate).1 := by
        have := mul_nonneg (by norm_num [SEMANTIC_WEIGHT] : (0:ℚ) ≤ SEMANTIC_WEIGHT) hs0
        have := mul_nonneg (by norm_num [RULE_WEIGHT] : (0:ℚ) ≤ RULE_WEIGHT) hr0
        linarith
      have hf1 : SEMANTIC_WEIGHT * _calculate_semantic_score sim
          + RULE_WEIGHT * (_calculate_rule_score job candidate).1 ≤ 1 := by
        simp only [SEMANTIC_WEIGHT, RULE_WEIGHT]
        linarith
      refine ⟨?_, ?_, ?_⟩
      · exact round2_bounds _ (by linarith) (by linarith)
      · exact round2_bounds _ (by linarith) (by linarith)
      · exact round2_bounds _ (by linarith) (by linarith)
  · simp only [_calculate_match]
    norm_num

theorem lookup_drop_of_none {V : Type} (k : String) (c : List (String × V))
    (h : List.lookup k c = none) (n : ℕ) : List.lookup k (c.drop n) = none := by
  induction c generalizing n with
  | nil => simp
  | cons a t ih =>
    rcases n with _ | n
    · simpa using h
    · rw [List.drop_succ_cons]
      apply ih
      rw [List.lookup] at h
      rcases hbeq : k == a.1 with _ | _
      · rw [hbeq] at h
        simpa using h
      · rw [hbeq] at h
        simp at h

theorem lookup_append_of_none {V : Type} (k : String) (l₁ l₂ : List (String × V))
    (h : List.lookup k l₁ = none) :
    List.lookup k (l₁ ++ l₂) = List.lookup k l₂ := by
  induction l₁ with
  | nil => rfl
  | cons a t ih =>
    rw [List.cons_append, List.lookup]
    rw [List.lookup] at h
    rcases hbeq : k == a.1 with _ | _
    · rw [hbeq] at h
      apply ih
      simpa using h
    · rw [hbeq] at h
      simp at h

/-- C6: looking up the same text twice returns the cached vector on the
second call without invoking the provider, leaving the cache (and hence its
size) unchanged, and the two returned vectors are identical. The hypothesis
`1 ≤ maxsize` restricts to the domain on which the cache model is faithful
(`cachetools` raises for a zero-capacity insert; the configured default is
1000). -/
theorem embedding_cache_idempotent {V : Type} (hashFn : String → String)
    (encode : String → V) (maxsize : ℕ) (text : String) (c₀ : List (String × V))
    (hms : 1 ≤ maxsize) :
    (_get_embedding hashFn encode maxsize text
        (_get_embedding hashFn encode maxsize text c₀).2.1).1
      = (_get_embedding hashFn encode maxsize text c₀).1
    ∧ (_get_embedding hashFn encode maxsize text
        (_get_embedding hashFn encode maxsize text c₀).2.1).2.1
      = (_get_embedding hashFn encode maxsize text c₀).2.1
    ∧ (_get_embedding hashFn encode maxsize text
        (_get_embedding hashFn encode maxsize text c₀).2.1).2.2 = false := by
  rcases hlk : List.lookup (hashFn text) c₀ with _ | v
  · have h1 : _get_embedding hashFn encode maxsize text c₀
        = (encode text, cacheInsert maxsize (hashFn text) (encode text) c₀, true) := by
      unfold _get_embedding
      dsimp only
      rw [hlk]
    have hlk2 : List.lookup (hashFn text)
        (cacheInsert maxsize (hashFn text) (encode text) c₀) = some (encode text) := by
      unfold cacheInsert
      rw [lookup_append_of_none _ _ _ (lookup_drop_of_none _ _ hlk _)]
      simp [List.lookup]
    have h2 : _get_embedding hashFn encode maxsize text
        (cacheInsert maxsize (hashFn text) (encode text) c₀)
        = (encode text, cacheInsert maxsize (hashFn text) (encode text) c₀, false) := by
      unfold _get_embedding
      dsimp only
      rw [hlk2]
    rw [h1, h2]
    exact ⟨rfl, rfl, rfl⟩
  · have h1 : _get_embedding hashFn encode maxsize text c₀ = (v, c₀, false) := by
      unfold _get_embedding
      dsimp only
      rw [hlk]
    have h2 : _get_embedding hashFn encode maxsize text (v, c₀, false).2.1 = (v, c₀, false) := by
      unfold _get_embedding
      dsimp only
      rw [hlk]
    rw [h1, h2]
    exact ⟨rfl, rfl, rfl⟩

/-- C6 witness: a concrete double lookup on an empty cache of capacity 1000
does not invoke the provider the second time. -/
theorem embedding_cache_idempotent_witness :
    (1:ℕ) ≤ 1000
    ∧ (_get_embedding (V := ℕ) id (fun _ => 7) 1000 "tel aviv"
        ((_get_embedding (V := ℕ) id (fun _ => 7) 1000 "tel aviv" []).2.1)).2.2 = false :=
  ⟨by norm_num,
    (embedding_cache_idempotent id (fun _ => 7) 1000 "tel aviv" [] (by norm_num)).2.2⟩

theorem sortByScoreDesc_perm {α : Type} (l : List (RankEntry α)) :
    (sortByScoreDesc l).Perm l :=
  List.perm_insertionSort scoreGE l

theorem sortByScoreDesc_sorted {α : Type} (l : List (RankEntry α)) :
    List.Pairwise scoreGE (sortByScoreDesc l) :=
  List.sorted_insertionSort scoreGE l

theorem filter_score_orderedInsert {α : Type} (s : ℚ) (x : RankEntry α)
    (l : List (RankEntry α)) :
    (List.orderedInsert scoreGE x l).filter (fun e => decide (e.score = s))
      = (if x.score = s then [x] else [])
        ++ l.filter (fun e => decide (e.score = s)) := by
  induction l with
  | nil =>
    rw [List.orderedInsert]
    by_cases hx : x.score = s <;> simp [List.filter_cons, hx]
  | cons y t ih =>
    by_cases hxy : scoreGE x y
    · rw [List.orderedInsert, if_pos hxy]
      by_cases hx : x.score = s <;> simp [List.filter_cons, hx]
    · rw [List.orderedInsert, if_neg hxy]
      by_cases hx : x.score = s
      · have hy : ¬ y.score = s := by
          intro hy
          exact hxy (le_of_eq (hx ▸ hy))
        simp [List.filter_cons, hx, hy, ih]
      · simp [List.filter_cons, hx, ih]

theorem sortByScoreDesc_filter_score {α : Type} (s : ℚ) (l : List (RankEntry α)) :
    (sortByScoreDesc l).filter (fun e => decide (e.score = s))
      = l.filter (fun e => decide (e.score = s)) := by
  induction l with
  | nil => rfl
  | cons x t ih =>
    show (List.orderedInsert scoreGE x (sortByScoreDesc t)).filter _ = _
    rw [filter_score_orderedInsert, ih]
    by_cases hx : x.score = s <;> simp [List.filter_cons, hx]

/-- C5: both ranking operations return exactly the evaluated entries whose
score is not strictly below the threshold (first conjunct, definitional as a
filter over the evaluated collection, plus the permutation), sorted by score
in descending order, and stably so: restricted to any fixed score value the
output preserves the original collection order. -/
theorem rank_filter_sort_stable :
    (∀ (sim : CandidateDB → Option ℚ) (exc : CandidateDB → Option String)
        (job : JobDB) (candidates : List CandidateDB) (min_score : ℚ),
      rank_candidates_for_job sim exc job candidates min_score
          = sortByScoreDesc (keptCandidateEntries sim exc job candidates min_score)
        ∧ keptCandidateEntries sim exc job candidates min_score
            = candidates.filterMap (fun candidate =>
                let m := _calculate_match (sim candidate) (exc candidate) job candidate
                if m.score < min_score then none else some (matchEntry candidate m))
        ∧ (rank_candidates_for_job sim exc job candidates min_score).Perm
            (keptCandidateEntries sim exc job candidates min_score)
        ∧ List.Pairwise scoreGE (rank_candidates_for_job sim exc job candidates min_score)
        ∧ ∀ s : ℚ,
            (rank_candidates_for_job sim exc job candidates min_score).filter
                (fun e => decide (e.score = s))
              = (keptCandidateEntries sim exc job candidates min_score).filter
                (fun e => decide (e.score = s)))
    ∧ (∀ (sim : JobDB → Option ℚ) (exc : JobDB → Option String)
        (candidate : CandidateDB) (jobs : List JobDB) (min_score : ℚ),
      rank_jobs_for_candidate sim exc candidate jobs min_score
          = sortByScoreDesc (keptJobEntries sim exc candidate jobs min_score)
        ∧ keptJobEntries sim exc candidate jobs min_score
            = jobs.filterMap (fun job =>
                let m := _calculate_match (sim job) (exc job) job candidate
                if m.score < min_score then none else some (matchEntry job m))
        ∧ (rank_jobs_for_candidate sim exc candidate jobs min_score).Perm
            (keptJobEntries sim exc candidate jobs min_score)
        ∧ List.Pairwise scoreGE (rank_jobs_for_candidate sim exc candidate jobs min_score)
        ∧ ∀ s : ℚ,
            (rank_jobs_for_candidate sim exc candidate jobs min_score).filter
                (fun e => decide (e.score = s))
              = (keptJobEntries sim exc candidate jobs min_score).filter
                (fun e => decide (e.score = s))) := by
  constructor
  · intro sim exc job candidates min_score
    exact ⟨rfl, rfl, sortByScoreDesc_perm _, sortByScoreDesc_sorted _,
      fun s => sortByScoreDesc_filter_score s _⟩
  · intro sim exc candidate jobs min_score
    exact ⟨rfl, rfl, sortByScoreDesc_perm _, sortByScoreDesc_sorted _,
      fun s => sortByScoreDesc_filter_score s _⟩

/-- C9: when the evaluation of one pair raises an unexpected exception, that
pair yields a zero-score result whose reasons list is exactly the error
annotation, the kept entries of a batch decompose around the failing pair
(so every other pair contributes exactly what it would contribute on its
own), the ranking result is the stable descending sort of those parts, and
the failing pair itself contributes its zero-score error entry whenever the
threshold admits score 0 (in particular the batch is never aborted). -/
theorem per_pair_failure_isolated (sim : CandidateDB → Option ℚ)
    (exc : CandidateDB → Option String) (job : JobDB) (f : CandidateDB) (msg : String)
    (l₁ l₂ : List CandidateDB) (min_score : ℚ) (hf : exc f = some msg) :
    (_calculate_match (sim f) (exc f) job f).score = 0
    ∧ (_calculate_match (sim f) (exc f) job f).match_reasons
        = ["❌ Error during matching: " ++ msg]
    ∧ keptCandidateEntries sim exc job (l₁ ++ f :: l₂) min_score
        = keptCandidateEntries sim exc job l₁ min_score
          ++ keptCandidateEntries sim exc job [f] min_score
          ++ keptCandidateEntries sim exc job l₂ min_score
    ∧ rank_candidates_for_job sim exc job (l₁ ++ f :: l₂) min_score
        = sortByScoreDesc (keptCandidateEntries sim exc job l₁ min_score
            ++ keptCandidateEntries sim exc job [f] min_score
            ++ keptCandidateEntries sim exc job l₂ min_score)
    ∧ keptCandidateEntries sim exc job [f] min_score
        = if (0:ℚ) < min_score then []
          else [matchEntry f (_calculate_match (sim f) (exc f) job f)] := by
  have hm : _calculate_match (sim f) (exc f) job f =
      { candidate := f, job := job, score := 0,
        match_reasons := ["❌ Error during matching: " ++ msg] } := by
    rw [hf]
    rfl
  have hscore : (_calculate_match (sim f) (exc f) job f).score = 0 := by rw [hm]
  have happ : keptCandidateEntries sim exc job (l₁ ++ f :: l₂) min_score
      = keptCandidateEntries sim exc job l₁ min_score
        ++ keptCandidateEntries sim exc job [f] min_score
        ++ keptCandidateEntries sim exc job l₂ min_score := by
    unfold keptCandidateEntries
    rw [show l₁ ++ f :: l₂ = l₁ ++ ([f] ++ l₂) from rfl,
      List.filterMap_append, List.filterMap_append]
    exact (List.append_assoc _ _ _).symm
  refine ⟨hscore, by rw [hm], happ, ?_, ?_⟩
  · show sortByScoreDesc (keptCandidateEntries sim exc job (l₁ ++ f :: l₂) min_score) = _
    rw [happ]
  · unfold keptCandidateEntries
    rw [List.filterMap]
    simp only [hscore]
    by_cases h0 : (0:ℚ) < min_score
    · rw [if_pos h0, if_pos h0]
      rfl
    · rw [if_neg h0, if_neg h0]
      rfl

/-- C9 witness: a concrete batch of three candidates in which the middle one
raises; its result has score 0 with the error annotation, and the kept
entries of the batch decompose around it. -/
theorem per_pair_failure_isolated_witness :
    (_calculate_match
        ((fun _ => some 0.5) ({ location := "b", salary_expectation := 2 } : CandidateDB))
        ((fun c => if c.salary_expectation = 2 then some "boom" else none)
          ({ location := "b", salary_expectation := 2 } : CandidateDB))
        { location := "a" } { location := "b", salary_expectation := 2 }).score = 0 :=
  (per_pair_failure_isolated (fun _ => some 0.5)
    (fun c => if c.salary_expectation = 2 then some "boom" else none)
    { location := "a" } { location := "b", salary_expectation := 2 } "boom"
    [{ location := "c", salary_expectation := 1 }]
    [{ location := "d", salary_expectation := 3 }]
    0 (by norm_num)).1

theorem pyLower_append (a b : String) : pyLower (a ++ b) = pyLower a ++ pyLower b := by
  cases a with | mk la =>
  cases b with | mk lb =>
  show String.mk _ = String.mk _
  rw [show (String.mk la ++ String.mk lb) = String.mk (la ++ lb) from rfl]
  simp [pyLower]

theorem pyJoin_snoc (sep : String) (l : List String) (e : String) :
    pyJoin sep (l ++ [e]) = if l = [] then e else pyJoin sep l ++ sep ++ e := by
  induction l with
  | nil => rfl
  | cons a t ih =>
    rcases t with _ | ⟨b, t'⟩
    · simp [pyJoin]
    · rw [show (a :: b :: t') ++ [e] = a :: ((b :: t') ++ [e]) from rfl]
      rw [show (b :: t') ++ [e] = b :: (t' ++ [e]) from rfl]
      rw [pyJoin, show b :: (t' ++ [e]) = (b :: t') ++ [e] from rfl, ih]
      rw [if_neg (by simp), if_neg (by simp)]
      rw [pyJoin]
      simp [String.append_assoc]

theorem strContains_mono (hay hay' n : String)
    (hsub : hay.data <:+: hay'.data) (h : strContains hay n = true) :
    strContains hay' n = true := by
  unfold strContains at h ⊢
  exact decide_eq_true ((of_decide_eq_true h).trans hsub)

theorem combinedText_skills_nil (candidate : CandidateDB) (hsk : candidate.skills = []) :
    (combinedText candidate).data
      = (pyLower (pyJoin " " candidate.experience)).data ++ [' '] := by
  unfold combinedText
  rw [hsk]
  rw [String.data_append, String.data_append]
  have h1 : (pyLower (pyJoin " " ([] : List String))).data = [] := rfl
  have h2 : (" " : String).data = [' '] := rfl
  rw [h1, h2, List.append_nil]

theorem combinedText_append_within (candidate : CandidateDB) (entry : String)
    (hsk : candidate.skills = []) :
    (combinedText candidate).data <:+:
      (combinedText { candidate with experience := candidate.experience ++ [entry] }).data := by
  rw [combinedText_skills_nil candidate hsk,
    combinedText_skills_nil { candidate with experience := candidate.experience ++ [entry] } hsk]
  show _ <:+: (pyLower (pyJoin " " (candidate.experience ++ [entry]))).data ++ [' ']
  rw [pyJoin_snoc]
  by_cases hexp : candidate.experience = []
  · rw [if_pos hexp, hexp]
    have h1 : (pyLower (pyJoin " " ([] : List String))).data = [] := rfl
    rw [h1, List.nil_append]
    exact (List.suffix_append _ _).isInfix
  · rw [if_neg hexp, pyLower_append, pyLower_append]
    rw [String.data_append, String.data_append]
    have hsp : (pyLower " ").data = [' '] := rfl
    rw [hsp]
    refine List.IsPrefix.isInfix ?_
    have hp := List.prefix_append
      ((pyLower (pyJoin " " candidate.experience)).data ++ [' '])
      ((pyLower entry).data ++ [' '])
    simpa [List.append_assoc] using hp

theorem entry_infix_combined (candidate : CandidateDB) (entry : String)
    (hsk : candidate.skills = []) :
    (pyLower entry).data <:+:
      (combinedText { candidate with experience := candidate.experience ++ [entry] }).data := by
  rw [combinedText_skills_nil { candidate with experience := candidate.experience ++ [entry] } hsk]
  show (pyLower entry).data <:+: (pyLower (pyJoin " " (candidate.experience ++ [entry]))).data ++ [' ']
  rw [pyJoin_snoc]
  by_cases hexp : candidate.experience = []
  · rw [if_pos hexp]
    exact (List.prefix_append _ _).isInfix
  · rw [if_neg hexp, pyLower_append, pyLower_append]
    rw [String.data_append, String.data_append]
    have hinf := List.infix_append
      ((pyLower (pyJoin " " candidate.experience)).data ++ (pyLower " ").data)
      ((pyLower entry).data) ([' '])
    simpa [List.append_assoc] using hinf

/-- C7 counterexample: for the job requiring ["x y", "z"] and the candidate
with experience ["x"] and skills ["y z"], both requirements match ("x y"
matches across the experience-skills junction of the combined text
"x y z"), so the score is 1; appending the entry "z" — which contains the
job requirement "z" as a substring — changes the combined text to
"x z y z", breaks the junction match of "x y", and drops the score to 1/2.
So appending an entry containing a requirement CAN strictly decrease the
requirements score, refuting the claim as stated. -/
theorem requirements_monotone_counterexample :
    ("z" ∈ ({ location := "a", requirements := ["x y", "z"] } : JobDB).requirements
      ∧ strContains (pyLower "z") (pyLower "z") = true)
    ∧ (_score_requirements { location := "a", requirements := ["x y", "z"] }
        { location := "a", experience := ["x"], skills := ["y z"],
          salary_expectation := 1 }).1 = 1
    ∧ (_score_requirements { location := "a", requirements := ["x y", "z"] }
        { location := "a", experience := ["x"] ++ ["z"], skills := ["y z"],
          salary_expectation := 1 }).1 = 1/2
    ∧ (_score_requirements { location := "a", requirements := ["x y", "z"] }
          { location := "a", experience := ["x"] ++ ["z"], skills := ["y z"],
            salary_expectation := 1 }).1
        < (_score_requirements { location := "a", requirements := ["x y", "z"] }
          { location := "a", experience := ["x"], skills := ["y z"],
            salary_expectation := 1 }).1 := by
  have h1 : (_score_requirements { location := "a", requirements := ["x y", "z"] }
      { location := "a", experience := ["x"], skills := ["y z"],
        salary_expectation := 1 }).1 = 1 := by
    rw [_score_requirements_fst, if_neg (by decide)]
    have hf : ({ location := "a", requirements := ["x y", "z"] } : JobDB).requirements.filter
        (fun req => strContains (combinedText
          { location := "a", experience := ["x"], skills := ["y z"],
            salary_expectation := 1 }) (pyLower req)) = ["x y", "z"] := by decide
    rw [hf]
    norm_num
  have h2 : (_score_requirements { location := "a", requirements := ["x y", "z"] }
      { location := "a", experience := ["x"] ++ ["z"], skills := ["y z"],
        salary_expectation := 1 }).1 = 1/2 := by
    rw [_score_requirements_fst, if_neg (by decide)]
    have hf : ({ location := "a", requirements := ["x y", "z"] } : JobDB).requirements.filter
        (fun req => strContains (combinedText
          { location := "a", experience := ["x"] ++ ["z"], skills := ["y z"],
            salary_expectation := 1 }) (pyLower req)) = ["z"] := by decide
    rw [hf]
    norm_num
  refine ⟨⟨by decide, by decide⟩, h1, h2, ?_⟩
  rw [h1, h2]
  norm_num

/-- C7 amended: appending to the experience an entry containing one of the
job requirements never decreases the requirements score PROVIDED the
candidate has no skills entries — in general a requirement previously
matched across the junction of the experience text and the skills text can
be unmatched by the insertion and the score can drop (see the
counterexample). The contained requirement is matched after the append. -/
theorem requirements_monotone_amended (job : JobDB) (candidate : CandidateDB)
    (entry r : String) (hr : r ∈ job.requirements)
    (hc : strContains (pyLower entry) (pyLower r) = true)
    (hsk : candidate.skills = []) :
    (_score_requirements job candidate).1
      ≤ (_score_requirements job
          { candidate with experience := candidate.experience ++ [entry] }).1
    ∧ strContains (combinedText
          { candidate with experience := candidate.experience ++ [entry] })
        (pyLower r) = true := by
  have hmono : ∀ req : String,
      strContains (combinedText candidate) (pyLower req) = true →
      strContains (combinedText
        { candidate with experience := candidate.experience ++ [entry] })
        (pyLower req) = true :=
    fun req h => strContains_mono _ _ _ (combinedText_append_within candidate entry hsk) h
  constructor
  · rw [_score_requirements_fst, _score_requirements_fst]
    by_cases hreq : job.requirements = []
    · rw [if_pos hreq, if_pos hreq]
    · rw [if_neg hreq, if_neg hreq]
      have hpos : (0:ℚ) < (job.requirements.length : ℚ) := by
        have := List.length_pos.mpr hreq
        exact_mod_cast this
      rw [div_le_div_iff_of_pos_right hpos]
      exact_mod_cast (List.monotone_filter_right job.requirements
        (fun a ha => hmono a ha)).length_le
  · unfold strContains
    refine decide_eq_true ?_
    have h1 : (pyLower r).data <:+: (pyLower entry).data := of_decide_eq_true hc
    exact h1.trans (entry_infix_combined candidate entry hsk)

/-- C7 amended witness: a skill-less candidate gains (or keeps) score when
the entry "python dev", containing requirement "python", is appended. -/
theorem requirements_monotone_amended_witness :
    (_score_requirements { location := "a", requirements := ["python"] }
        { location := "a", experience := ["java"], skills := [],
          salary_expectation := 1 }).1
      ≤ (_score_requirements { location := "a", requirements := ["python"] }
          { location := "a", experience := ["java"] ++ ["python dev"], skills := [],
            salary_expectation := 1 }).1 :=
  (requirements_monotone_amended
    { location := "a", requirements := ["python"] }
    { location := "a", experience := ["java"], skills := [], salary_expectation := 1 }
    "python dev" "python" (by decide) (by decide) rfl).1

end JobMatcher
